import Mathlib

/-! Verification of the Agrichatbot query-routing and context-augmentation
pipeline: a shallow embedding of `chatbot/utils.py`,
`chatbot/knowledge_base.py` and `chatbot/response_generator.py`, with
theorems settling the specification claims about it.

Python strings are modeled as Lean `String`; Python `a in b` (substring
test) as a list-infix test on the underlying character lists; the two
network collaborators (generation backend, ThingSpeak feed) and the
`random.choice` call are modeled as explicit oracle inputs; a call
counter records whether the generation backend was invoked.
-/

namespace Agrichatbot

/-- The ASCII whitespace characters matched by Python regex class backslash-s
(space, tab, newline, carriage return, vertical tab, form feed). -/
def pyIsSpace (c : Char) : Bool :=
  c = ' ' || c = '\t' || c = '\n' || c = '\r' || c = '\x0b' || c = '\x0c'

/-- Python `a in b` for strings: `a` occurs as a contiguous substring of `b`. -/
def isSubstr (needle hay : String) : Bool :=
  decide (needle.toList <:+: hay.toList)

/-- Python `s.startswith(pre)`. -/
def pyStartsWith (pre s : String) : Bool :=
  pre.toList.isPrefixOf s.toList

/-- Python `str.lower` on one character (ASCII range, as exercised by the code). -/
def pyToLower (c : Char) : Char := c.toLower

/-- Python `str.lower` on a string. -/
def pyLowerStr (s : String) : String := ⟨s.toList.map pyToLower⟩

/-- `re.sub(r'\s+', ' ', text)`: collapse every maximal run of whitespace
characters into a single space. -/
def collapseWS : List Char → List Char
  | [] => []
  | c :: cs =>
    if pyIsSpace c then ' ' :: collapseWS (cs.dropWhile pyIsSpace)
    else c :: collapseWS cs
termination_by l => l.length
decreasing_by
  · simp only [List.length_cons]
    exact Nat.lt_succ_of_le (cs.dropWhile_suffix pyIsSpace).length_le
  · simp

/-- `str.strip()`: remove leading and trailing whitespace. -/
def stripWS (l : List Char) : List Char :=
  ((l.dropWhile pyIsSpace).reverse.dropWhile pyIsSpace).reverse

/-- `utils.clean_text` on a (non-null) string: lowercase, collapse whitespace
runs to a single space, trim the ends; the empty string is returned as is. -/
def clean_text (s : String) : String :=
  if s = "" then "" else ⟨stripWS (collapseWS (s.toList.map pyToLower))⟩

/-- `utils.clean_text` including the null (`None`) input case: Python
`if not text: return ""` treats both `None` and `""` as falsy. -/
def clean_textOpt : Option String → String
  | none => ""
  | some s => clean_text s

/-- Python `str.split()` with no argument, on a character list: the maximal
whitespace-free words, in order, with no empty words. -/
def pyWordsAux : List Char → List (List Char)
  | [] => []
  | c :: cs =>
    if pyIsSpace c then pyWordsAux cs
    else (c :: cs.takeWhile (fun d => !pyIsSpace d)) ::
      pyWordsAux (cs.dropWhile (fun d => !pyIsSpace d))
termination_by l => l.length
decreasing_by
  · simp
  · simp only [List.length_cons]
    exact Nat.lt_succ_of_le (cs.dropWhile_suffix _).length_le

/-- Python `str.split()` with no argument. -/
def pySplit (s : String) : List String :=
  (pyWordsAux s.toList).map fun w => ⟨w⟩

/-! Knowledge base (`chatbot/knowledge_base.py`) -/

/-- A field value inside a knowledge entry: the JSON-ish records in the
default dataset hold either a string or a list of strings. -/
inductive KVal where
  | str : String → KVal
  | lst : List String → KVal
deriving DecidableEq

/-- A knowledge entry: either a field-name-to-value record (Python dict)
or a bare string, as discriminated by `isinstance` in the scoring code. -/
inductive Entry where
  | dict : List (String × KVal) → Entry
  | str : String → Entry
deriving DecidableEq

/-- Entries of one topic: Python dict, modeled as an association list in
insertion order. -/
def TopicData := List (String × Entry)
deriving DecidableEq

/-- The knowledge store: topic name to topic data, in insertion order. -/
def Knowledge := List (String × TopicData)
deriving DecidableEq

/-- `AgricultureKnowledgeBase._calculate_relevance(query, key, data)`:
+2 if any whitespace-delimited query word is a substring of the lowercased
key; +1 for each string-valued field whose lowercased content contains a
query word; +1 if the entry is a bare string containing a query word. -/
def calculate_relevance (query key : String) (data : Entry) : Nat :=
  let keyScore :=
    if (pySplit query).any (fun w => isSubstr w (pyLowerStr key)) then 2 else 0
  let contentScore :=
    match data with
    | .dict fields =>
      (fields.filter fun fc =>
        match fc.2 with
        | .str content => (pySplit query).any fun w => isSubstr w (pyLowerStr content)
        | .lst _ => false).length
    | .str s => if (pySplit query).any (fun w => isSubstr w (pyLowerStr s)) then 1 else 0
  keyScore + contentScore

/-- One step of the best-match loop in `search`: keep the running
`(best_match, highest_score)` pair, replacing it only on a strictly
greater score. -/
def searchStep (ql : String) (acc : Option Entry × Nat) (kv : String × Entry) :
    Option Entry × Nat :=
  let score := calculate_relevance ql kv.1 kv.2
  if score > acc.2 then (some kv.2, score) else acc

/-- Python `topic in self.knowledge`: membership among the store keys. -/
def hasTopic (kb : Knowledge) (t : String) : Bool :=
  kb.any fun p => p.1 = t

/-- Python `self.knowledge[topic]` (first binding wins, as in a dict). -/
def topicEntries (kb : Knowledge) (t : String) : TopicData :=
  match kb.find? (fun p => p.1 = t) with
  | some p => p.2
  | none => []

/-- `AgricultureKnowledgeBase.search(query, topic)`: with a truthy topic
present in the store, scan that topic keeping the strictly-best-scoring
entry; otherwise scan every entry of every topic; return the best match
only when the highest score is positive. -/
def search (kb : Knowledge) (query : String) (topic : Option String) : Option Entry :=
  let ql := pyLowerStr query
  match topic with
  | some t =>
    if t ≠ "" && hasTopic kb t then
      let r := (topicEntries kb t).foldl (searchStep ql) (none, 0)
      if r.2 > 0 then r.1 else none
    else
      let r := kb.foldl (fun acc tp => tp.2.foldl (searchStep ql) acc) ((none : Option Entry), 0)
      if r.2 > 0 then r.1 else none
  | none =>
    let r := kb.foldl (fun acc tp => tp.2.foldl (searchStep ql) acc) ((none : Option Entry), 0)
    if r.2 > 0 then r.1 else none

/-- `AgricultureKnowledgeBase._get_default_crops_data`. -/
def default_crops_data : TopicData :=
  [("rice", .dict
      [("name", .str "Rice"),
       ("description", .str "Rice is a staple cereal grain and one of the most important crops worldwide."),
       ("growing_tips", .str "• Plant in flooded fields\n• Requires warm climate\n• 120-150 days to maturity\n• pH 5.5-6.5 preferred"),
       ("season", .str "Monsoon season (June-October)"),
       ("pests", .lst ["Brown planthopper", "Rice stem borer", "Blast disease"])]),
   ("wheat", .dict
      [("name", .str "Wheat"),
       ("description", .str "Wheat is a cereal grain that is a worldwide staple food."),
       ("growing_tips", .str "• Cool, dry climate preferred\n• Well-drained soil\n• 100-130 days to harvest\n• pH 6.0-7.0 optimal"),
       ("season", .str "Winter season (November-April)"),
       ("pests", .lst ["Aphids", "Rust diseases", "Hessian fly"])]),
   ("tomato", .dict
      [("name", .str "Tomato"),
       ("description", .str "Tomatoes are versatile fruits used in cooking worldwide."),
       ("growing_tips", .str "• Warm weather crop\n• Rich, well-drained soil\n• Regular watering\n• Support with stakes"),
       ("season", .str "Summer season (March-June)"),
       ("pests", .lst ["Tomato hornworm", "Aphids", "Blight diseases"])]),
   ("potato", .dict
      [("name", .str "Potato"),
       ("description", .str "Potatoes are underground tubers that are a major food crop."),
       ("growing_tips", .str "• Cool weather preferred\n• Loose, fertile soil\n• Hill up plants regularly\n• Consistent moisture"),
       ("season", .str "Winter season (October-February)"),
       ("pests", .lst ["Colorado potato beetle", "Late blight", "Aphids"])]),
   ("corn", .dict
      [("name", .str "Corn (Maize)"),
       ("description", .str "Corn is a cereal grain that serves as food for humans and livestock."),
       ("growing_tips", .str "• Warm season crop\n• Full sun exposure\n• Rich, well-drained soil\n• Adequate spacing for pollination"),
       ("season", .str "Summer season (April-August)"),
       ("pests", .lst ["Corn borer", "Armyworm", "Corn smut"])])]

/-- `AgricultureKnowledgeBase._get_default_knowledge`. -/
def default_knowledge : Knowledge :=
  [("crops", default_crops_data),
   ("pests",
     [("aphids", .dict
        [("name", .str "Aphids"),
         ("description", .str "Small, soft-bodied insects that feed on plant sap."),
         ("treatment", .str "Use neem oil spray, introduce ladybugs, or use insecticidal soap."),
         ("prevention", .str "Regular inspection, avoid over-fertilization")]),
      ("caterpillars", .dict
        [("name", .str "Caterpillars"),
         ("description", .str "Larvae of moths and butterflies that eat plant leaves."),
         ("treatment", .str "Hand picking, Bt spray, or appropriate insecticides."),
         ("prevention", .str "Row covers, companion planting")])]),
   ("soil",
     [("ph_testing", .dict
        [("description", .str "Soil pH affects nutrient availability to plants."),
         ("recommendations", .str "Test pH annually. Most crops prefer pH 6.0-7.0. Use lime to raise pH, sulfur to lower it.")]),
      ("composting", .dict
        [("description", .str "Composting creates rich organic matter for soil improvement."),
         ("recommendations", .str "Mix green and brown materials, maintain moisture, turn regularly for aeration.")])]),
   ("weather",
     [("seasonal_planning", .dict
        [("description", .str "Planning crops according to seasonal weather patterns."),
         ("recommendations", .str "Plant warm-season crops after last frost, cool-season crops in fall/winter.")])]),
   ("general",
     [("organic_farming", .dict
        [("description", .str "Farming without synthetic chemicals, focusing on natural methods."),
         ("recommendations", .str "Use compost, crop rotation, biological pest control, and cover crops.")])])]

/-- `AgricultureKnowledgeBase._load_knowledge`: the store starts with the
five fixed topics empty; if the crops data file exists, its parsed content
(or, when parsing raises, the full default dataset) is used; if the file
is absent, only the crops topic receives the default crop data. -/
def load_knowledge (cropsFileExists : Bool)
    (readCrops : Except Unit TopicData) : Knowledge :=
  if cropsFileExists then
    match readCrops with
    | .ok d =>
      [("crops", d), ("pests", []), ("soil", []), ("weather", []), ("general", [])]
    | .error _ => default_knowledge
  else
    [("crops", default_crops_data), ("pests", []), ("soil", []),
     ("weather", []), ("general", [])]

/-! Response generator (`chatbot/response_generator.py`)

The two network collaborators and `random.choice` are modeled as oracle
inputs carried in an environment record; replies are paired with the
number of generation-backend calls made, so that the "backend never
called" claims are expressible. -/

/-- The three fixed greeting templates (`self.greetings`). -/
def greetingsList : List String :=
  ["Hello! I\x27m your Agriculture Assistant. How can I help you with farming today?",
   "Hi there! I\x27m here to help with all your agriculture and farming questions.",
   "Welcome! Ask me anything about crops, cultivation, pests, or farming techniques."]

/-- The fixed topic pattern table (`self.topic_patterns`), in insertion order. -/
def topic_patterns : List (String × List String) :=
  [("crops", ["crop", "crops", "plant", "plants", "grow", "cultivation", "farming"]),
   ("pests", ["pest", "pests", "insect", "insects", "bug", "bugs", "disease", "diseases"]),
   ("soil", ["soil", "fertilizer", "fertiliser", "nutrients", "ph", "compost"]),
   ("weather", ["weather", "rain", "season", "climate", "temperature", "humidity", "pressure", "forecast"]),
   ("seeds", ["seed", "seeds", "planting", "sowing", "germination"]),
   ("harvest", ["harvest", "harvesting", "yield", "production", "storage"])]

/-- `self.topic_patterns[t]` lookup. -/
def topicKeywords (t : String) : List String :=
  (topic_patterns.lookup t).getD []

/-- The greeting phrases checked by `_is_greeting`. -/
def greetingPhrases : List String :=
  ["hello", "hi", "hey", "good morning", "good afternoon", "good evening"]

/-- The farewell phrases checked by `_is_goodbye`. -/
def goodbyePhrases : List String :=
  ["bye", "goodbye", "see you", "thanks", "thank you", "exit", "quit"]

/-- `AgricultureBot._is_greeting`. -/
def is_greeting (text : String) : Bool :=
  greetingPhrases.any fun g => isSubstr g text

/-- `AgricultureBot._is_goodbye`. -/
def is_goodbye (text : String) : Bool :=
  goodbyePhrases.any fun g => isSubstr g text

/-- One comparison step of Python `max(items, key=lambda x: x[1])`: the
running maximum is replaced only on a strictly greater key, so the first
maximal element in iteration order is kept. -/
def pyMaxStep {β : Type} (best c : β × Nat) : β × Nat :=
  if c.2 > best.2 then c else best

/-- `AgricultureBot._identify_topic`: per-topic count of keywords occurring
as substrings of the text; topics with zero count are dropped; Python
`max(..., key=...)` keeps the first maximum in insertion order. -/
def identify_topic (text : String) : Option String :=
  let topic_scores := topic_patterns.filterMap fun p =>
    let score := (p.2.filter fun kw => isSubstr kw text).length
    if score > 0 then some (p.1, score) else none
  match topic_scores with
  | [] => none
  | x :: xs => some (xs.foldl pyMaxStep x).1

/-- The fixed farewell string. -/
def farewellMsg : String := "Thank you for using Agriculture Assistant! Happy farming! 🌱"

/-- The fixed apology returned when the live weather fetch fails. -/
def weatherApologyMsg : String :=
  "Sorry, I couldn\x27t fetch the live weather data from ThingSpeak right now. Please try again later."

/-- The fixed message returned when the generation backend never initialised. -/
def offlineMsg : String :=
  "I\x27m sorry, my AI capabilities are currently offline. Please try again later."

/-- The fixed apology returned when a generation-backend call raises. -/
def backendTroubleMsg : String :=
  "I\x27m sorry, I\x27m having trouble connecting to my knowledge source right now. Please try again later."

/-- One latest-feed record from the ThingSpeak JSON (`feeds[0]`); a field
is `none` when the key is missing from the record. -/
structure Feed where
  field1 : Option String
  field2 : Option String
  field3 : Option String

/-- Outcome of the HTTP GET plus JSON decode in `get_weather`:
either the call raised, or it produced a document whose `feeds` key
holds `none` (missing/null) or a list of records. -/
inductive FetchResult where
  | raised : FetchResult
  | ok : Option (List Feed) → FetchResult

/-- The weather-feed collaborator state: the configured channel id
(`None` or a string, the empty string being falsy) and the fetch outcome. -/
structure FeedState where
  channel : Option String
  fetch : FetchResult

/-- The weather reading assembled by `get_weather`:
`field1`/`field2` via `.get` (possibly `None`), `field3` with default "N/A". -/
structure WeatherInfo where
  temperature : Option String
  humidity : Option String
  pressure : String

/-- `AgricultureBot.get_weather`: `None` without a truthy channel id, on a
raised request, or on an empty or missing `feeds` array; otherwise the
reading from the first feed record. -/
def get_weather (fs : FeedState) : Option WeatherInfo :=
  match fs.channel with
  | none => none
  | some c =>
    if c = "" then none
    else
      match fs.fetch with
      | .raised => none
      | .ok none => none
      | .ok (some []) => none
      | .ok (some (latest :: _)) =>
        some ⟨latest.field1, latest.field2, latest.field3.getD "N/A"⟩

/-- Python `str()` of an `Optional[str]` as interpolated in an f-string. -/
def pyShowOpt : Option String → String
  | none => "None"
  | some s => s

/-- The generation backend handle: whether `self.chat` was initialised,
and the send-message oracle (`Except` error = raised exception). -/
structure GenBackend where
  chat : Bool
  send : String → Except String String

/-- A reply from the bot together with the number of generation-backend
calls made while producing it. -/
structure BotReply where
  text : String
  backendCalls : Nat
deriving DecidableEq

/-- `json.dumps` of a field value (escaping elided; no claim depends on
the serialized text). -/
def jsonOfKVal : KVal → String
  | .str s => "\"" ++ s ++ "\""
  | .lst xs => "[" ++ String.intercalate ", " (xs.map fun x => "\"" ++ x ++ "\"") ++ "]"

/-- `json.dumps` of a knowledge entry. -/
def jsonOfEntry : Entry → String
  | .str s => "\"" ++ s ++ "\""
  | .dict fields =>
    "\x7b" ++
      String.intercalate ",\n"
        (fields.map fun fc => "\"" ++ fc.1 ++ "\": " ++ jsonOfKVal fc.2) ++
    "\x7d"

/-- The prompt assembled by `_get_ai_response`. -/
def buildPrompt (user_input : String) (context : Option Entry) : String :=
  let base := "User question: \x27" ++ user_input ++ "\x27"
  match context with
  | none => base
  | some e => base ++ "\n\nHere is some relevant context:\n" ++ jsonOfEntry e

/-- The post-processing applied to backend replies in `_get_ai_response`:
if the reply starts with the tagged fence, Python `str.replace` removes
every occurrence of the opening marker and then every occurrence of the
closing marker (left to right, non-overlapping). -/
def replaceAllAux (pat : List Char) : List Char → List Char
  | [] => []
  | c :: rest =>
    if pat ≠ [] && pat.isPrefixOf (c :: rest) then
      replaceAllAux pat ((c :: rest).drop pat.length)
    else c :: replaceAllAux pat rest
termination_by l => l.length
decreasing_by
  · rename_i h
    simp only [List.length_cons, List.length_drop]
    have hpat : pat ≠ [] := by
      intro hm
      simp [hm] at h
    have : 0 < pat.length := List.length_pos.mpr hpat
    omega
  · simp

/-- Python `s.replace(pat, "")` (remove every occurrence). -/
def removeAll (pat : String) (s : String) : String :=
  ⟨replaceAllAux pat.toList s.toList⟩

/-- The markdown-fence post-processing step of `_get_ai_response`. -/
def strip_markdown_fence (text : String) : String :=
  if pyStartsWith "```markdown" text then
    removeAll "\n```" (removeAll "```markdown\n" text)
  else text

/-- `AgricultureBot._get_ai_response`: short-circuits to the offline
message when no chat session exists; otherwise sends the prompt once,
unwraps a markdown fence on success, and converts a raised call into the
fixed trouble message. -/
def get_ai_response (b : GenBackend) (user_input : String)
    (context : Option Entry) : BotReply :=
  if !b.chat then ⟨offlineMsg, 0⟩
  else
    match b.send (buildPrompt user_input context) with
    | .ok t => ⟨strip_markdown_fence t, 1⟩
    | .error _ => ⟨backendTroubleMsg, 1⟩

/-- The per-call oracle environment of `AgricultureBot`: backend handle,
loaded knowledge store, weather-feed state, and the index drawn by
`random.choice` over the three greetings. -/
structure Env where
  backend : GenBackend
  kb : Knowledge
  feed : FeedState
  randIdx : Fin 3

/-- The weather prompt f-string in `get_response`. -/
def weatherPrompt (wi : WeatherInfo) : String :=
  "User asked about weather. Current sensor readings are: " ++
  "Temperature: " ++ pyShowOpt wi.temperature ++ "°C, " ++
  "Humidity: " ++ pyShowOpt wi.humidity ++ "%, " ++
  "Pressure: " ++ wi.pressure ++ " hPa. " ++
  "Explain what this means for farming."

/-- `AgricultureBot._process_agriculture_query`: classify the topic, look
up context when a topic was found, and delegate to the backend. -/
def process_agriculture_query (env : Env) (user_input : String) : BotReply :=
  let topic := identify_topic user_input
  let context_info :=
    match topic with
    | some t => search env.kb user_input (some t)
    | none => none
  get_ai_response env.backend user_input context_info

/-- `AgricultureBot.get_response`: clean the lowercased input, then
dispatch in order: greeting, farewell, weather keywords, general
agriculture query. -/
def get_response (env : Env) (user_input : String) : BotReply :=
  let ui := clean_text (pyLowerStr user_input)
  if is_greeting ui then ⟨greetingsList.get (env.randIdx.cast (by rfl)), 0⟩
  else if is_goodbye ui then ⟨farewellMsg, 0⟩
  else if (topicKeywords "weather").any (fun w => isSubstr w ui) then
    match get_weather env.feed with
    | some wi => get_ai_response env.backend (weatherPrompt wi) none
    | none => ⟨weatherApologyMsg, 0⟩
  else process_agriculture_query env ui

/-! Lemmas about the normalizer -/

/-- Adjacent characters are not both whitespace. -/
def NoWsPair (a b : Char) : Prop := pyIsSpace a = false ∨ pyIsSpace b = false

lemma toLower_toLower (c : Char) : c.toLower.toLower = c.toLower := by
  have key : ∀ m : Nat, 97 ≤ m → m ≤ 122 → (Char.ofNat m).toNat = m := by
    intro m h1 h2
    interval_cases m <;> rfl
  unfold Char.toLower
  by_cases h : c.toNat ≥ 65 ∧ c.toNat ≤ 90
  · simp only [if_pos h]
    rw [if_neg]
    rw [key (c.toNat + 32) (by omega) (by omega)]
    omega
  · simp only [if_neg h]

lemma pyToLower_pyToLower (c : Char) : pyToLower (pyToLower c) = pyToLower c :=
  toLower_toLower c

lemma collapseWS_cons_pos {c : Char} {cs : List Char} (h : pyIsSpace c = true) :
    collapseWS (c :: cs) = ' ' :: collapseWS (cs.dropWhile pyIsSpace) := by
  rw [collapseWS, if_pos h]

lemma collapseWS_cons_neg {c : Char} {cs : List Char} (h : pyIsSpace c = false) :
    collapseWS (c :: cs) = c :: collapseWS cs := by
  rw [collapseWS, if_neg (by simp [h])]

lemma dropWhile_head_false {p : Char → Bool} :
    ∀ {l : List Char} {x : Char} {xs : List Char}, l.dropWhile p = x :: xs → p x = false := by
  intro l
  induction l with
  | nil => intro x xs h; simp at h
  | cons c cs ih =>
    intro x xs h
    by_cases hc : p c
    · rw [List.dropWhile_cons_of_pos hc] at h
      exact ih h
    · rw [List.dropWhile_cons_of_neg hc] at h
      cases h
      simpa using hc

lemma head_collapseWS_dropWhile {cs : List Char} {d : Char}
    (h : (collapseWS (cs.dropWhile pyIsSpace)).head? = some d) : pyIsSpace d = false := by
  cases hdw : cs.dropWhile pyIsSpace with
  | nil => rw [hdw] at h; simp [collapseWS] at h
  | cons x xs =>
    have hx : pyIsSpace x = false := dropWhile_head_false hdw
    rw [hdw, collapseWS_cons_neg hx] at h
    simp at h
    rw [← h]
    exact hx

lemma mem_collapseWS : ∀ l, ∀ a ∈ collapseWS l, a ∈ l ∨ a = ' ' := by
  intro l
  induction l using collapseWS.induct with
  | case1 => intro a ha; simp [collapseWS] at ha
  | case2 c cs hc ih =>
    intro a ha
    rw [collapseWS_cons_pos hc] at ha
    rcases List.mem_cons.mp ha with h | h
    · right; exact h
    · rcases ih a h with h2 | h2
      · left
        exact List.mem_cons_of_mem c ((cs.dropWhile_sublist pyIsSpace).subset h2)
      · right; exact h2
  | case3 c cs hc ih =>
    intro a ha
    rw [collapseWS_cons_neg (by simpa using hc)] at ha
    rcases List.mem_cons.mp ha with h | h
    · left; simp [h]
    · rcases ih a h with h2 | h2
      · left; exact List.mem_cons_of_mem c h2
      · right; exact h2

lemma collapseWS_ws_space : ∀ l, ∀ a ∈ collapseWS l, pyIsSpace a = true → a = ' ' := by
  intro l
  induction l using collapseWS.induct with
  | case1 => intro a ha; simp [collapseWS] at ha
  | case2 c cs hc ih =>
    intro a ha hsp
    rw [collapseWS_cons_pos hc] at ha
    rcases List.mem_cons.mp ha with h | h
    · exact h
    · exact ih a h hsp
  | case3 c cs hc ih =>
    intro a ha hsp
    rw [collapseWS_cons_neg (by simpa using hc)] at ha
    rcases List.mem_cons.mp ha with h | h
    · subst h; simp [hsp] at hc
    · exact ih a h hsp

lemma collapseWS_chain : ∀ l, List.Chain' NoWsPair (collapseWS l) := by
  intro l
  induction l using collapseWS.induct with
  | case1 => simp [collapseWS]
  | case2 c cs hc ih =>
    rw [collapseWS_cons_pos hc]
    rw [List.chain'_cons']
    refine ⟨?_, ih⟩
    intro y hy
    right
    exact head_collapseWS_dropWhile hy
  | case3 c cs hc ih =>
    rw [collapseWS_cons_neg (by simpa using hc)]
    rw [List.chain'_cons']
    refine ⟨?_, ih⟩
    intro y _
    left
    simpa using hc

lemma stripWS_prefix_dropWhile (l : List Char) :
    stripWS l <+: l.dropWhile pyIsSpace := by
  have h := List.reverse_prefix.mpr
    (((l.dropWhile pyIsSpace).reverse).dropWhile_suffix pyIsSpace)
  simpa [stripWS] using h

lemma stripWS_infix_self (l : List Char) : stripWS l <:+: l :=
  List.IsInfix.trans
    (List.IsPrefix.isInfix (stripWS_prefix_dropWhile l))
    (List.IsSuffix.isInfix (l.dropWhile_suffix pyIsSpace))

lemma stripWS_head {l : List Char} {d : Char}
    (h : (stripWS l).head? = some d) : pyIsSpace d = false := by
  cases hs : stripWS l with
  | nil => rw [hs] at h; simp at h
  | cons x xs =>
    rw [hs] at h
    simp at h
    subst h
    obtain ⟨t, ht⟩ := stripWS_prefix_dropWhile l
    rw [hs] at ht
    exact dropWhile_head_false ht.symm

lemma stripWS_last {l : List Char} {d : Char}
    (h : (stripWS l).getLast? = some d) : pyIsSpace d = false := by
  unfold stripWS at h
  rw [List.getLast?_reverse] at h
  cases hs : ((l.dropWhile pyIsSpace).reverse).dropWhile pyIsSpace with
  | nil => rw [hs] at h; simp at h
  | cons x xs =>
    rw [hs] at h
    simp at h
    subst h
    exact dropWhile_head_false hs

lemma stripWS_eq_self {l : List Char}
    (h1 : ∀ d, l.head? = some d → pyIsSpace d = false)
    (h2 : ∀ d, l.getLast? = some d → pyIsSpace d = false) :
    stripWS l = l := by
  cases l with
  | nil => rfl
  | cons c cs =>
    have hdrop : (c :: cs).dropWhile pyIsSpace = c :: cs :=
      List.dropWhile_cons_of_neg (by simp [h1 c rfl])
    unfold stripWS
    rw [hdrop]
    cases hr : (c :: cs).reverse with
    | nil => simp at hr
    | cons x xs =>
      have hx : pyIsSpace x = false := by
        apply h2
        rw [← List.head?_reverse, hr]
        rfl
      rw [List.dropWhile_cons_of_neg (by simp [hx]), ← hr, List.reverse_reverse]

lemma collapseWS_eq_self : ∀ l, (∀ a ∈ l, pyIsSpace a = true → a = ' ') →
    (∀ d, l.getLast? = some d → pyIsSpace d = false) →
    List.Chain' NoWsPair l → collapseWS l = l := by
  intro l
  induction l using collapseWS.induct with
  | case1 => intro _ _ _; rw [collapseWS]
  | case2 c cs hc ih =>
    intro hs hlast hchain
    have hcsp : c = ' ' := hs c (List.mem_cons_self c cs) hc
    cases cs with
    | nil =>
      exfalso
      have := hlast c (by rfl)
      rw [this] at hc
      exact Bool.false_ne_true hc
    | cons d ds =>
      have hd : pyIsSpace d = false := by
        rcases (List.chain'_cons.mp hchain).1 with h | h
        · rw [hc] at h; exact absurd h (by simp)
        · exact h
      have hdw : (d :: ds).dropWhile pyIsSpace = d :: ds :=
        List.dropWhile_cons_of_neg (by simp [hd])
      rw [collapseWS_cons_pos hc, hdw, hcsp]
      have ihr := ih
      rw [hdw] at ihr
      rw [ihr (fun a ha hsp => hs a (List.mem_cons_of_mem c ha) hsp)
        (fun e he => hlast e (by rw [List.getLast?_cons_cons]; exact he))
        (List.chain'_cons.mp hchain).2]
  | case3 c cs hc ih =>
    intro hs hlast hchain
    rw [collapseWS_cons_neg (by simpa using hc)]
    cases cs with
    | nil => rw [collapseWS]
    | cons d ds =>
      rw [ih (fun a ha hsp => hs a (List.mem_cons_of_mem c ha) hsp)
        (fun e he => hlast e (by rw [List.getLast?_cons_cons]; exact he))
        (List.chain'_cons.mp hchain).2]

lemma map_fix {f : Char → Char} : ∀ l : List Char, (∀ a ∈ l, f a = a) → l.map f = l := by
  intro l
  induction l with
  | nil => intro _; rfl
  | cons c cs ih =>
    intro h
    simp only [List.map_cons]
    rw [h c (List.mem_cons_self c cs), ih fun a ha => h a (List.mem_cons_of_mem c ha)]

/-- Boolean check: no two consecutive whitespace characters. -/
def noWsRun : List Char → Bool
  | [] => true
  | [_] => true
  | a :: b :: rest => !(pyIsSpace a && pyIsSpace b) && noWsRun (b :: rest)

lemma chain_noWsRun : ∀ l, List.Chain' NoWsPair l → noWsRun l = true := by
  intro l
  induction l with
  | nil => intro _; rfl
  | cons a t ih =>
    cases t with
    | nil => intro _; rfl
    | cons b r =>
      intro h
      have h1 := (List.chain'_cons.mp h).1
      have h2 := ih (List.chain'_cons.mp h).2
      show (!(pyIsSpace a && pyIsSpace b) && noWsRun (b :: r)) = true
      rcases h1 with hf | hf <;> simp [hf, h2]

lemma clean_text_toList (s : String) (h : ¬ s = "") :
    (clean_text s).toList = stripWS (collapseWS (s.toList.map pyToLower)) := by
  rw [clean_text, if_neg h]
  rfl

lemma mem_clean_text_lower {s : String} {a : Char}
    (ha : a ∈ (clean_text s).toList) : pyToLower a = a := by
  by_cases h : s = ""
  · rw [h] at ha; simp [clean_text] at ha
  · rw [clean_text_toList s h] at ha
    have hc := (stripWS_infix_self (collapseWS (s.toList.map pyToLower))).subset ha
    rcases mem_collapseWS _ a hc with hm | hm
    · obtain ⟨b, _, hb⟩ := List.mem_map.mp hm
      rw [← hb]
      exact pyToLower_pyToLower b
    · rw [hm]; rfl

lemma clean_text_chain (s : String) : List.Chain' NoWsPair (clean_text s).toList := by
  by_cases h : s = ""
  · rw [h]; simp [clean_text]
  · rw [clean_text_toList s h]
    exact List.Chain'.infix (collapseWS_chain (s.toList.map pyToLower))
      (stripWS_infix_self (collapseWS (s.toList.map pyToLower)))

lemma clean_text_head {s : String} {d : Char}
    (h : (clean_text s).toList.head? = some d) : pyIsSpace d = false := by
  by_cases hs : s = ""
  · rw [hs] at h; simp [clean_text] at h
  · rw [clean_text_toList s hs] at h
    exact stripWS_head h

lemma clean_text_last {s : String} {d : Char}
    (h : (clean_text s).toList.getLast? = some d) : pyIsSpace d = false := by
  by_cases hs : s = ""
  · rw [hs] at h; simp [clean_text] at h
  · rw [clean_text_toList s hs] at h
    exact stripWS_last h

lemma clean_text_ws_space {s : String} {a : Char}
    (ha : a ∈ (clean_text s).toList) (hsp : pyIsSpace a = true) : a = ' ' := by
  by_cases h : s = ""
  · rw [h] at ha; simp [clean_text] at ha
  · rw [clean_text_toList s h] at ha
    exact collapseWS_ws_space _ a
      ((stripWS_infix_self (collapseWS (s.toList.map pyToLower))).subset ha) hsp

lemma clean_text_idem (s : String) : clean_text (clean_text s) = clean_text s := by
  by_cases h0 : clean_text s = ""
  · rw [h0]
    simp [clean_text]
  · rw [clean_text, if_neg h0]
    have hmap : (clean_text s).toList.map pyToLower = (clean_text s).toList :=
      map_fix _ fun a ha => mem_clean_text_lower ha
    rw [hmap]
    have hcol : collapseWS (clean_text s).toList = (clean_text s).toList :=
      collapseWS_eq_self _ (fun a ha hsp => clean_text_ws_space ha hsp)
        (fun d hd => clean_text_last hd) (clean_text_chain s)
    rw [hcol]
    have hstrip : stripWS (clean_text s).toList = (clean_text s).toList :=
      stripWS_eq_self (fun d hd => clean_text_head hd) (fun d hd => clean_text_last hd)
    rw [hstrip]
    rfl

/-- C9: for every input string, the normalizer output has no leading or
trailing whitespace and no run of two or more consecutive whitespace
characters, the normalizer is idempotent, and empty or null input yields
the empty string. -/
theorem clean_text_normalizer_spec (s : String) :
    noWsRun (clean_text s).toList = true ∧
    ((clean_text s).toList.head?.all fun d => !pyIsSpace d) = true ∧
    ((clean_text s).toList.getLast?.all fun d => !pyIsSpace d) = true ∧
    clean_text (clean_text s) = clean_text s ∧
    clean_text "" = "" ∧
    clean_textOpt none = "" := by
  refine ⟨chain_noWsRun _ (clean_text_chain s), ?_, ?_, clean_text_idem s, rfl, rfl⟩
  · cases hh : (clean_text s).toList.head? with
    | none => rfl
    | some d => simpa using clean_text_head hh
  · cases hh : (clean_text s).toList.getLast? with
    | none => rfl
    | some d => simpa using clean_text_last hh

/-! Lemmas about the best-match folds -/

lemma foldl_pyMaxStep_spec {β : Type} :
    ∀ (l : List (β × Nat)) (x : β × Nat),
      (∀ y ∈ l, y.2 ≤ (l.foldl pyMaxStep x).2) ∧
      x.2 ≤ (l.foldl pyMaxStep x).2 ∧
      (l.foldl pyMaxStep x = x ∨
        (x.2 < (l.foldl pyMaxStep x).2 ∧
          ∃ l1 l2, l = l1 ++ (l.foldl pyMaxStep x) :: l2 ∧
            ∀ y ∈ l1, y.2 < (l.foldl pyMaxStep x).2)) := by
  intro l
  induction l with
  | nil => intro x; exact ⟨by simp, Nat.le_refl _, Or.inl rfl⟩
  | cons c cs ih =>
    intro x
    rw [List.foldl_cons]
    by_cases hc : c.2 > x.2
    · rw [show pyMaxStep x c = c from if_pos hc]
      obtain ⟨h1, h2, h3⟩ := ih c
      refine ⟨?_, ?_, ?_⟩
      · intro y hy
        rcases List.mem_cons.mp hy with h | h
        · rw [h]; exact h2
        · exact h1 y h
      · exact Nat.le_of_lt (Nat.lt_of_lt_of_le hc h2)
      · right
        rcases h3 with he | ⟨hlt, l1, l2, heq, hall⟩
        · rw [he]
          exact ⟨hc, [], cs, rfl, by simp⟩
        · refine ⟨Nat.lt_trans hc hlt, c :: l1, l2, by rw [List.cons_append, ← heq], ?_⟩
          intro y hy
          rcases List.mem_cons.mp hy with h | h
          · rw [h]; exact hlt
          · exact hall y h
    · rw [show pyMaxStep x c = x from if_neg hc]
      obtain ⟨h1, h2, h3⟩ := ih x
      have hcx : c.2 ≤ x.2 := Nat.le_of_not_lt hc
      refine ⟨?_, h2, ?_⟩
      · intro y hy
        rcases List.mem_cons.mp hy with h | h
        · rw [h]; exact Nat.le_trans hcx h2
        · exact h1 y h
      · rcases h3 with he | ⟨hlt, l1, l2, heq, hall⟩
        · left; exact he
        · right
          refine ⟨hlt, c :: l1, l2, by rw [List.cons_append, ← heq], ?_⟩
          intro y hy
          rcases List.mem_cons.mp hy with h | h
          · rw [h]; exact Nat.lt_of_le_of_lt hcx hlt
          · exact hall y h

lemma filterMap_decomp {α β : Type} (g : α → Option β) :
    ∀ (l : List α) (s1 : List β) (b : β) (s2 : List β),
      l.filterMap g = s1 ++ b :: s2 →
      ∃ l1 a l2, l = l1 ++ a :: l2 ∧ g a = some b ∧
        l1.filterMap g = s1 ∧ l2.filterMap g = s2 := by
  intro l
  induction l with
  | nil => intro s1 b s2 h; simp at h
  | cons c cs ih =>
    intro s1 b s2 h
    cases hg : g c with
    | none =>
      rw [List.filterMap_cons_none hg] at h
      obtain ⟨l1, a, l2, heq, ha, h1, h2⟩ := ih s1 b s2 h
      exact ⟨c :: l1, a, l2, by rw [List.cons_append, ← heq], ha,
        by rw [List.filterMap_cons_none hg, h1], h2⟩
    | some d =>
      rw [List.filterMap_cons_some hg] at h
      cases s1 with
      | nil =>
        simp only [List.nil_append] at h
        have hd : d = b := by injection h with h1 _
        have hcs : cs.filterMap g = s2 := by injection h
        exact ⟨[], c, cs, rfl, by rw [hg, hd], rfl, hcs⟩
      | cons e s1t =>
        have hd : d = e := by injection h with h1 _
        have hcs : cs.filterMap g = s1t ++ b :: s2 := by injection h
        obtain ⟨l1, a, l2, heq, ha, h1, h2⟩ := ih s1t b s2 hcs
        exact ⟨c :: l1, a, l2, by rw [List.cons_append, ← heq], ha,
          by rw [List.filterMap_cons_some hg, h1, hd], h2⟩

lemma foldl_searchStep_spec (ql : String) :
    ∀ (l : List (String × Entry)) (b : Option Entry) (n : Nat),
      (∀ kv ∈ l, calculate_relevance ql kv.1 kv.2 ≤ (l.foldl (searchStep ql) (b, n)).2) ∧
      n ≤ (l.foldl (searchStep ql) (b, n)).2 ∧
      (l.foldl (searchStep ql) (b, n) = (b, n) ∨
        (n < (l.foldl (searchStep ql) (b, n)).2 ∧
          ∃ l1 kv l2, l = l1 ++ kv :: l2 ∧
            l.foldl (searchStep ql) (b, n) = (some kv.2, calculate_relevance ql kv.1 kv.2) ∧
            ∀ e ∈ l1, calculate_relevance ql e.1 e.2 < (l.foldl (searchStep ql) (b, n)).2)) := by
  intro l
  induction l with
  | nil => intro b n; exact ⟨by simp, Nat.le_refl _, Or.inl rfl⟩
  | cons c cs ih =>
    intro b n
    rw [List.foldl_cons]
    by_cases hc : calculate_relevance ql c.1 c.2 > n
    · rw [show searchStep ql (b, n) c = (some c.2, calculate_relevance ql c.1 c.2) from
        if_pos hc]
      obtain ⟨h1, h2, h3⟩ := ih (some c.2) (calculate_relevance ql c.1 c.2)
      refine ⟨?_, ?_, ?_⟩
      · intro kv hkv
        rcases List.mem_cons.mp hkv with h | h
        · rw [h]; exact h2
        · exact h1 kv h
      · exact Nat.le_of_lt (Nat.lt_of_lt_of_le hc h2)
      · right
        refine ⟨Nat.lt_of_lt_of_le hc h2, ?_⟩
        rcases h3 with he | ⟨hlt, l1, kv, l2, heq, hr, hall⟩
        · exact ⟨[], c, cs, rfl, he, by simp⟩
        · refine ⟨c :: l1, kv, l2, by rw [List.cons_append, ← heq], hr, ?_⟩
          intro e he2
          rcases List.mem_cons.mp he2 with h | h
          · rw [h]; exact hlt
          · exact hall e h
    · rw [show searchStep ql (b, n) c = (b, n) from if_neg hc]
      obtain ⟨h1, h2, h3⟩ := ih b n
      have hcx : calculate_relevance ql c.1 c.2 ≤ n := Nat.le_of_not_lt hc
      refine ⟨?_, h2, ?_⟩
      · intro kv hkv
        rcases List.mem_cons.mp hkv with h | h
        · rw [h]; exact Nat.le_trans hcx h2
        · exact h1 kv h
      · rcases h3 with he | ⟨hlt, l1, kv, l2, heq, hr, hall⟩
        · left; exact he
        · right
          refine ⟨hlt, c :: l1, kv, l2, by rw [List.cons_append, ← heq], hr, ?_⟩
          intro e he2
          rcases List.mem_cons.mp he2 with h | h
          · rw [h]; exact Nat.lt_of_le_of_lt hcx hlt
          · exact hall e h

lemma foldl_search_all_eq (ql : String) :
    ∀ (kb : Knowledge) (acc : Option Entry × Nat),
      kb.foldl (fun acc tp => tp.2.foldl (searchStep ql) acc) acc =
        (kb.map Prod.snd).flatten.foldl (searchStep ql) acc := by
  intro kb
  induction kb with
  | nil => intro acc; rfl
  | cons tp kbs ih =>
    intro acc
    rw [List.foldl_cons, List.map_cons, List.flatten_cons, List.foldl_append]
    exact ih (tp.2.foldl (searchStep ql) acc)

/-- The behaviour the spec ascribes to one best-match scan: null exactly
when every entry scores zero, and otherwise the first entry in iteration
order attaining the maximal (positive) relevance score. -/
def SearchBestSpec (q : String) (entries : List (String × Entry))
    (res : Option Entry) : Prop :=
  (res = none ↔ ∀ kv ∈ entries, calculate_relevance (pyLowerStr q) kv.1 kv.2 = 0) ∧
  (∀ v, res = some v →
    ∃ l1 kv l2, entries = l1 ++ kv :: l2 ∧ v = kv.2 ∧
      0 < calculate_relevance (pyLowerStr q) kv.1 kv.2 ∧
      (∀ e ∈ entries,
        calculate_relevance (pyLowerStr q) e.1 e.2 ≤
          calculate_relevance (pyLowerStr q) kv.1 kv.2) ∧
      (∀ e ∈ l1,
        calculate_relevance (pyLowerStr q) e.1 e.2 <
          calculate_relevance (pyLowerStr q) kv.1 kv.2))

lemma searchBest_core (q : String) (entries : List (String × Entry)) :
    SearchBestSpec q entries
      (if (entries.foldl (searchStep (pyLowerStr q)) (none, 0)).2 > 0 then
        (entries.foldl (searchStep (pyLowerStr q)) (none, 0)).1 else none) := by
  obtain ⟨h1, _, h3⟩ := foldl_searchStep_spec (pyLowerStr q) entries none 0
  by_cases hr : (entries.foldl (searchStep (pyLowerStr q)) (none, 0)).2 > 0
  · rw [if_pos hr]
    rcases h3 with he | ⟨_, l1, kv, l2, heq, hfold, hall⟩
    · rw [he] at hr; exact absurd hr (by simp)
    · have hsc : (entries.foldl (searchStep (pyLowerStr q)) (none, 0)).2 =
          calculate_relevance (pyLowerStr q) kv.1 kv.2 := by rw [hfold]
      constructor
      · constructor
        · intro hnone
          rw [hfold] at hnone
          exact absurd hnone (by simp)
        · intro hzero
          exfalso
          have hkv : kv ∈ entries := by rw [heq]; exact List.mem_append_right _ (List.mem_cons_self kv l2)
          rw [hsc, hzero kv hkv] at hr
          exact absurd hr (by simp)
      · intro v hv
        rw [hfold] at hv
        have hvkv : v = kv.2 := by injection hv with h; exact h.symm
        refine ⟨l1, kv, l2, heq, hvkv, ?_, ?_, ?_⟩
        · rw [← hsc]; exact hr
        · intro e hee
          have := h1 e hee
          rw [hsc] at this
          exact this
        · intro e hee
          have := hall e hee
          rw [hsc] at this
          exact this
  · rw [if_neg hr]
    have hz : (entries.foldl (searchStep (pyLowerStr q)) (none, 0)).2 = 0 :=
      Nat.eq_zero_of_not_pos hr
    constructor
    · constructor
      · intro _ kv hkv
        have := h1 kv hkv
        rw [hz] at this
        exact Nat.le_zero.mp this
      · intro _; rfl
    · intro v hv
      exact absurd hv (by simp)

/-- C2: for every query and every topic present in the store, `search`
returns the first entry (in iteration order) of that topic attaining the
maximal relevance score, and null exactly when every entry of the topic
scores zero; with the topic omitted the same holds over every entry of
every topic in iteration order. -/
theorem search_relevance_spec (kb : Knowledge) (q t : String)
    (ht : (t ≠ "" && hasTopic kb t) = true) :
    SearchBestSpec q (topicEntries kb t) (search kb q (some t)) ∧
    SearchBestSpec q (kb.map Prod.snd).flatten (search kb q none) := by
  constructor
  · have hs : search kb q (some t) =
        (if ((topicEntries kb t).foldl (searchStep (pyLowerStr q)) (none, 0)).2 > 0 then
          ((topicEntries kb t).foldl (searchStep (pyLowerStr q)) (none, 0)).1 else none) := by
      rw [search, if_pos ht]
    rw [hs]
    exact searchBest_core q (topicEntries kb t)
  · have hs : search kb q none =
        (if ((kb.map Prod.snd).flatten.foldl (searchStep (pyLowerStr q)) (none, 0)).2 > 0 then
          ((kb.map Prod.snd).flatten.foldl (searchStep (pyLowerStr q)) (none, 0)).1
        else none) := by
      rw [search, foldl_search_all_eq]
    rw [hs]
    exact searchBest_core q (kb.map Prod.snd).flatten

/-- Closed witness for C2: the query "rice growing season" on the default
dataset restricted to topic "crops". -/
theorem search_relevance_spec_witness :
    (("crops" : String) ≠ "" && hasTopic default_knowledge "crops") = true ∧
    SearchBestSpec "rice growing season" (topicEntries default_knowledge "crops")
      (search default_knowledge "rice growing season" (some "crops")) :=
  ⟨by decide,
    (search_relevance_spec default_knowledge "rice growing season" "crops" (by decide)).1⟩

/-! Topic classifier -/

/-- The per-topic keyword-hit count computed by `_identify_topic`. -/
def topicCount (text : String) (p : String × List String) : Nat :=
  (p.2.filter fun kw => isSubstr kw text).length

/-- C4: the classifier returns null exactly when every topic's keyword
count is zero, and otherwise the topic whose count is maximal, the
earliest topic in the pattern table's insertion order winning ties. -/
theorem identify_topic_spec (text : String) :
    (identify_topic text = none ↔ ∀ p ∈ topic_patterns, topicCount text p = 0) ∧
    (∀ t, identify_topic text = some t →
      ∃ l1 p l2, topic_patterns = l1 ++ p :: l2 ∧ p.1 = t ∧ 0 < topicCount text p ∧
        (∀ p2 ∈ topic_patterns, topicCount text p2 ≤ topicCount text p) ∧
        (∀ p2 ∈ l1, topicCount text p2 < topicCount text p)) := by
  have hg : identify_topic text =
      (match topic_patterns.filterMap (fun p =>
          if topicCount text p > 0 then some (p.1, topicCount text p) else none) with
        | [] => none
        | x :: xs => some ((xs.foldl pyMaxStep x).1)) := rfl
  cases hfm : topic_patterns.filterMap (fun p =>
      if topicCount text p > 0 then some (p.1, topicCount text p) else none) with
  | nil =>
    have hid : identify_topic text = none := by rw [hg, hfm]
    constructor
    · rw [hid]
      constructor
      · intro _ p hp
        have := List.filterMap_eq_nil_iff.mp hfm p hp
        by_cases h0 : topicCount text p > 0
        · rw [if_pos h0] at this; exact absurd this (by simp)
        · omega
      · intro _; rfl
    · intro t hsome
      rw [hid] at hsome
      exact absurd hsome (by simp)
  | cons x xs =>
    have hid : identify_topic text = some ((xs.foldl pyMaxStep x).1) := by rw [hg, hfm]
    have hxmem : x ∈ topic_patterns.filterMap (fun p =>
        if topicCount text p > 0 then some (p.1, topicCount text p) else none) := by
      rw [hfm]; exact List.mem_cons_self x xs
    obtain ⟨px, hpx, hgx⟩ := List.mem_filterMap.mp hxmem
    have hpx0 : 0 < topicCount text px := by
      by_cases h0 : topicCount text px > 0
      · exact h0
      · rw [if_neg h0] at hgx; exact absurd hgx (by simp)
    constructor
    · rw [hid]
      constructor
      · intro hsome; exact absurd hsome (by simp)
      · intro hzero
        exfalso
        rw [hzero px hpx] at hpx0
        exact absurd hpx0 (by simp)
    · intro t hsome
      rw [hid] at hsome
      have ht : t = (xs.foldl pyMaxStep x).1 := by injection hsome with h; exact h.symm
      obtain ⟨h1, h2, h3⟩ := foldl_pyMaxStep_spec xs x
      have hdecomp : ∃ s1 s2, x :: xs = s1 ++ (xs.foldl pyMaxStep x) :: s2 ∧
          ∀ y ∈ s1, y.2 < (xs.foldl pyMaxStep x).2 := by
        rcases h3 with he | ⟨hxr, l1, l2, heq, hall⟩
        · exact ⟨[], xs, by rw [he]; rfl, by simp⟩
        · refine ⟨x :: l1, l2, by rw [List.cons_append, ← heq], ?_⟩
          intro y hy
          rcases List.mem_cons.mp hy with h | h
          · rw [h]; exact hxr
          · exact hall y h
      obtain ⟨s1, s2, hseq, hs1⟩ := hdecomp
      have hallle : ∀ y ∈ x :: xs, y.2 ≤ (xs.foldl pyMaxStep x).2 := by
        intro y hy
        rcases List.mem_cons.mp hy with h | h
        · rw [h]; exact h2
        · exact h1 y h
      have hfm2 : topic_patterns.filterMap (fun p =>
          if topicCount text p > 0 then some (p.1, topicCount text p) else none) =
          s1 ++ (xs.foldl pyMaxStep x) :: s2 := by rw [hfm]; exact hseq
      obtain ⟨l1, p, l2, heqtp, hgp, hf1, _⟩ := filterMap_decomp _ topic_patterns
        s1 (xs.foldl pyMaxStep x) s2 hfm2
      have hp0 : 0 < topicCount text p := by
        by_cases h0 : topicCount text p > 0
        · exact h0
        · rw [if_neg h0] at hgp; exact absurd hgp (by simp)
      have hreq : xs.foldl pyMaxStep x = (p.1, topicCount text p) := by
        rw [if_pos hp0] at hgp
        injection hgp with h
        exact h.symm
      refine ⟨l1, p, l2, heqtp, by rw [ht, hreq], hp0, ?_, ?_⟩
      · intro p2 hp2
        by_cases c0 : topicCount text p2 > 0
        · have hm : (p2.1, topicCount text p2) ∈
              topic_patterns.filterMap (fun p =>
                if topicCount text p > 0 then some (p.1, topicCount text p) else none) :=
            List.mem_filterMap.mpr ⟨p2, hp2, by rw [if_pos c0]⟩
          rw [hfm] at hm
          have := hallle _ hm
          rw [hreq] at this
          exact this
        · omega
      · intro p2 hp2
        by_cases c0 : topicCount text p2 > 0
        · have hm : (p2.1, topicCount text p2) ∈ l1.filterMap (fun p =>
              if topicCount text p > 0 then some (p.1, topicCount text p) else none) :=
            List.mem_filterMap.mpr ⟨p2, hp2, by rw [if_pos c0]⟩
          rw [hf1] at hm
          have := hs1 _ hm
          rw [hreq] at this
          exact this
        · omega

/-- Closed witness for C4: "grow crops" is classified as the crops topic,
with the promised decomposition of the pattern table. -/
theorem identify_topic_spec_witness :
    identify_topic "grow crops" = some "crops" ∧
    (∃ l1 p l2, topic_patterns = l1 ++ p :: l2 ∧ p.1 = "crops" ∧
      0 < topicCount "grow crops" p ∧
      (∀ p2 ∈ topic_patterns, topicCount "grow crops" p2 ≤ topicCount "grow crops" p) ∧
      (∀ p2 ∈ l1, topicCount "grow crops" p2 < topicCount "grow crops" p)) :=
  ⟨by decide, (identify_topic_spec "grow crops").2 "crops" (by decide)⟩

/-! Markdown-fence post-processing -/

lemma replaceAllAux_nil (pat : List Char) : replaceAllAux pat [] = [] := by
  rw [replaceAllAux]

lemma replaceAllAux_no_match_append (pat : List Char) :
    ∀ (a x : List Char),
      (∀ i, i < a.length → pat.isPrefixOf ((a ++ x).drop i) = false) →
      replaceAllAux pat (a ++ x) = a ++ replaceAllAux pat x := by
  intro a
  induction a with
  | nil => intro x _; rfl
  | cons c cs ih =>
    intro x h
    have h0 : pat.isPrefixOf (c :: (cs ++ x)) = false := by
      have := h 0 (by simp)
      simpa using this
    rw [show (c :: cs) ++ x = c :: (cs ++ x) from rfl]
    rw [replaceAllAux]
    rw [if_neg (by simp [h0])]
    have hih := ih x (by
      intro i hi
      have := h (i + 1) (by simpa using Nat.succ_lt_succ hi)
      simpa using this)
    rw [hih]
    rfl

lemma replaceAllAux_head_match (pat : List Char) (hne : pat ≠ []) (x : List Char) :
    replaceAllAux pat (pat ++ x) = replaceAllAux pat x := by
  cases pat with
  | nil => exact absurd rfl hne
  | cons p ps =>
    rw [show (p :: ps) ++ x = p :: (ps ++ x) from rfl]
    rw [replaceAllAux]
    rw [if_pos ?_]
    · rw [show p :: (ps ++ x) = (p :: ps) ++ x from rfl, List.drop_left]
    · have hp : (p :: ps) <+: (p :: ps) ++ x := List.prefix_append _ _
      simp only [List.cons_append] at hp
      simp [hp]

lemma replaceAllAux_no_occur (pat : List Char) (x : List Char)
    (h : ∀ i, i < x.length → pat.isPrefixOf (x.drop i) = false) :
    replaceAllAux pat x = x := by
  have hm := replaceAllAux_no_match_append pat x [] ?_
  · simpa [replaceAllAux_nil] using hm
  · intro i hi
    have := h i hi
    simpa using this

lemma no_match_opening (B : List Char) (hb : ('\x60') ∉ B) :
    ∀ i, i < (B ++ ("\n```" : String).toList).length →
      (("```markdown\n" : String).toList).isPrefixOf
        ((B ++ ("\n```" : String).toList).drop i) = false := by
  intro i hi
  by_contra hc
  rw [Bool.not_eq_false] at hc
  obtain ⟨t, ht⟩ := List.isPrefixOf_iff_prefix.mp hc
  have hlen : ("```markdown\n" : String).toList.length + t.length =
      (B ++ ("\n```" : String).toList).length - i := by
    rw [← List.length_append, ht, List.length_drop]
  have h12 : ("```markdown\n" : String).toList.length = 12 := by decide
  have h4 : (B ++ ("\n```" : String).toList).length = B.length + 4 := by
    simp [List.length_append]
  by_cases hcase : i < B.length
  · have hch : (B ++ ("\n```" : String).toList)[i]? = some '\x60' := by
      have hh : ((B ++ ("\n```" : String).toList).drop i)[0]? = some '\x60' := by
        rw [← ht]; rfl
      rw [List.getElem?_drop] at hh
      simpa using hh
    rw [List.getElem?_append, if_pos hcase] at hch
    exact hb (List.getElem?_mem hch)
  · omega

lemma no_match_closing (B : List Char) (hb : ('\x60') ∉ B) :
    ∀ i, i < B.length →
      (("\n```" : String).toList).isPrefixOf
        ((B ++ ("\n```" : String).toList).drop i) = false := by
  intro i hi
  by_contra hc
  rw [Bool.not_eq_false] at hc
  obtain ⟨t, ht⟩ := List.isPrefixOf_iff_prefix.mp hc
  have hch : (B ++ ("\n```" : String).toList)[i + 1]? = some '\x60' := by
    have hh : ((B ++ ("\n```" : String).toList).drop i)[1]? = some '\x60' := by
      rw [← ht]; rfl
    rw [List.getElem?_drop] at hh
    exact hh
  by_cases h1 : i + 1 < B.length
  · rw [List.getElem?_append, if_pos h1] at hch
    exact hb (List.getElem?_mem hch)
  · rw [List.getElem?_append, if_neg h1] at hch
    have hz : i + 1 - B.length = 0 := by omega
    rw [hz] at hch
    exact absurd hch (by decide)

lemma removeAll_wellformed (body : String) (hb : ('\x60') ∉ body.toList) :
    removeAll "\n```" (removeAll "```markdown\n" ("```markdown\n" ++ body ++ "\n```")) =
      body := by
  have hS : ("```markdown\n" ++ body ++ "\n```").toList =
      ("```markdown\n" : String).toList ++
        (body.toList ++ ("\n```" : String).toList) := by
    show (("```markdown\n" ++ body) ++ "\n```").data =
      ("```markdown\n" : String).data ++ (body.data ++ ("\n```" : String).data)
    rw [String.data_append, String.data_append, List.append_assoc]
  have s1 : replaceAllAux ("```markdown\n" : String).toList
      (("```markdown\n" : String).toList ++ (body.toList ++ ("\n```" : String).toList)) =
      replaceAllAux ("```markdown\n" : String).toList
        (body.toList ++ ("\n```" : String).toList) :=
    replaceAllAux_head_match _ (by decide) _
  have s2 : replaceAllAux ("```markdown\n" : String).toList
      (body.toList ++ ("\n```" : String).toList) =
      body.toList ++ ("\n```" : String).toList :=
    replaceAllAux_no_occur _ _ (no_match_opening body.toList hb)
  have s3 : replaceAllAux ("\n```" : String).toList
      (body.toList ++ ("\n```" : String).toList) =
      body.toList ++ replaceAllAux ("\n```" : String).toList ("\n```" : String).toList :=
    replaceAllAux_no_match_append _ _ _ (no_match_closing body.toList hb)
  have s4 : replaceAllAux ("\n```" : String).toList ("\n```" : String).toList = [] := by
    have hh := replaceAllAux_head_match ("\n```" : String).toList (by decide) []
    rw [List.append_nil] at hh
    rw [hh, replaceAllAux_nil]
  show (⟨replaceAllAux ("\n```" : String).toList
      (⟨replaceAllAux ("```markdown\n" : String).toList
        ("```markdown\n" ++ body ++ "\n```").toList⟩ : String).toList⟩ : String) = body
  rw [hS]
  show (⟨replaceAllAux ("\n```" : String).toList
      (replaceAllAux ("```markdown\n" : String).toList
        (("```markdown\n" : String).toList ++
          (body.toList ++ ("\n```" : String).toList)))⟩ : String) = body
  rw [s1, s2, s3, s4, List.append_nil]
  rfl

/-- C7 amended: a reply not beginning with the tagged fence is
returned verbatim; a reply of the exact form opening fence + body +
closing fence whose body contains no backtick unwraps to the body (the
code removes every occurrence of the two fence markers by global
`str.replace`, so bodies containing the markers are altered as well). -/
theorem strip_markdown_fence_spec (t body : String) :
    (pyStartsWith "```markdown" t = false → strip_markdown_fence t = t) ∧
    (('\x60') ∉ body.toList →
      strip_markdown_fence ("```markdown\n" ++ body ++ "\n```") = body) := by
  constructor
  · intro h
    rw [strip_markdown_fence, h]
    rfl
  · intro hb
    have hstart : pyStartsWith "```markdown" ("```markdown\n" ++ body ++ "\n```") = true := by
      rw [pyStartsWith, List.isPrefixOf_iff_prefix]
      exact ⟨'\n' :: (body.toList ++ ("\n```" : String).toList), rfl⟩
    rw [strip_markdown_fence, hstart]
    show removeAll "\n```" (removeAll "```markdown\n" ("```markdown\n" ++ body ++ "\n```")) = body
    exact removeAll_wellformed body hb

/-- Closed witness for C7: an untagged reply passes verbatim, and the
spec's own example reply unwraps to exactly its body. -/
theorem strip_markdown_fence_spec_witness :
    (pyStartsWith "```markdown" "Rice grows in flooded fields." = false ∧
      strip_markdown_fence "Rice grows in flooded fields." = "Rice grows in flooded fields.") ∧
    (('\x60') ∉ ("**Rice** grows well in flooded fields." : String).toList ∧
      strip_markdown_fence
        ("```markdown\n" ++ "**Rice** grows well in flooded fields." ++ "\n```") =
        "**Rice** grows well in flooded fields.") :=
  ⟨⟨by decide, (strip_markdown_fence_spec "Rice grows in flooded fields." "x").1 (by decide)⟩,
   ⟨by decide,
    (strip_markdown_fence_spec "x" "**Rice** grows well in flooded fields.").2 (by decide)⟩⟩

/-- Counterexample to C7 as stated: the reply `"```markdown\nA\n```B"`
begins with the tagged fence and its body (everything after the opening
fence) is `"A\n```B"`, which contains a fence marker in the middle and no
trailing closing fence; the code returns `"AB"`, deleting the medial
marker, so the inner text is not preserved exactly. -/
theorem strip_markdown_fence_counterexample :
    ("```markdown\nA\n```B" : String) = "```markdown\n" ++ "A\n```B" ∧
    strip_markdown_fence "```markdown\nA\n```B" = "AB" ∧
    ("AB" : String) ≠ "A\n```B" := by
  refine ⟨by decide, ?_, by decide⟩
  have hstart : pyStartsWith "```markdown" "```markdown\nA\n```B" = true := by decide
  have e1 : ("```markdown\nA\n```B" : String).toList =
      ("```markdown\n" : String).toList ++ ("A\n```B" : String).toList := by decide
  have s1 : replaceAllAux ("```markdown\n" : String).toList
      (("```markdown\n" : String).toList ++ ("A\n```B" : String).toList) =
      replaceAllAux ("```markdown\n" : String).toList ("A\n```B" : String).toList :=
    replaceAllAux_head_match _ (by decide) _
  have s2 : replaceAllAux ("```markdown\n" : String).toList ("A\n```B" : String).toList =
      ("A\n```B" : String).toList :=
    replaceAllAux_no_occur _ _ (by decide)
  have e2 : ("A\n```B" : String).toList =
      ['A'] ++ (("\n```" : String).toList ++ ['B']) := by decide
  have s3 : replaceAllAux ("\n```" : String).toList
      (['A'] ++ (("\n```" : String).toList ++ ['B'])) =
      ['A'] ++ replaceAllAux ("\n```" : String).toList
        (("\n```" : String).toList ++ ['B']) :=
    replaceAllAux_no_match_append _ _ _ (by decide)
  have s4 : replaceAllAux ("\n```" : String).toList
      (("\n```" : String).toList ++ ['B']) =
      replaceAllAux ("\n```" : String).toList ['B'] :=
    replaceAllAux_head_match _ (by decide) _
  have s5 : replaceAllAux ("\n```" : String).toList ['B'] = ['B'] :=
    replaceAllAux_no_occur _ _ (by decide)
  rw [strip_markdown_fence, hstart]
  show (⟨replaceAllAux ("\n```" : String).toList
      (⟨replaceAllAux ("```markdown\n" : String).toList
        ("```markdown\nA\n```B" : String).toList⟩ : String).toList⟩ : String) = "AB"
  rw [e1]
  show (⟨replaceAllAux ("\n```" : String).toList
      (replaceAllAux ("```markdown\n" : String).toList
        (("```markdown\n" : String).toList ++ ("A\n```B" : String).toList))⟩ : String) = "AB"
  rw [s1, s2, e2, s3, s4, s5]
  decide

/-! Knowledge-store construction (claims C3 and C10) -/

/-- Boolean check of the crop-entry shape the spec promises: description,
growing tips and season as strings and a pest list. -/
def cropEntryShape : Entry → Bool
  | .dict fields =>
    (match fields.lookup "description" with | some (.str _) => true | _ => false) &&
    (match fields.lookup "growing_tips" with | some (.str _) => true | _ => false) &&
    (match fields.lookup "season" with | some (.str _) => true | _ => false) &&
    (match fields.lookup "pests" with | some (.lst _) => true | _ => false)
  | .str _ => false

/-- Counterexample to C3 as stated: when the crops data file is merely
absent (no read error raised), the pests topic of the resulting store is
empty rather than holding the two default pest entries. -/
theorem load_knowledge_absent_counterexample :
    (topicEntries (load_knowledge false (Except.error ())) "pests").length = 0 ∧
    (0 : Nat) ≠ 2 :=
  ⟨by decide, by decide⟩

/-- C3 amended: only a raised read (file present but unreadable)
falls back to the full default dataset — five crop entries of the
documented shape plus two pest, two soil, one weather-planning and one
general-farming entries; when the file is merely absent, only the crops
topic receives the five default crop entries and the remaining four
topics stay empty. -/
theorem load_knowledge_fallback_spec (readCrops : Except Unit TopicData) :
    (load_knowledge true (Except.error ()) = default_knowledge ∧
      (topicEntries default_knowledge "crops").length = 5 ∧
      (topicEntries default_knowledge "pests").length = 2 ∧
      (topicEntries default_knowledge "soil").length = 2 ∧
      (topicEntries default_knowledge "weather").length = 1 ∧
      (topicEntries default_knowledge "general").length = 1 ∧
      (default_crops_data.all fun kv => cropEntryShape kv.2) = true) ∧
    load_knowledge false readCrops =
      [("crops", default_crops_data), ("pests", []), ("soil", []),
       ("weather", []), ("general", [])] := by
  refine ⟨⟨rfl, ?_, ?_, ?_, ?_, ?_, ?_⟩, rfl⟩ <;> decide

/-- C10: a requested topic that is not a key of the store (as happens
for every query the classifier labels "seeds" or "harvest", the store
keys being exactly crops, pests, soil, weather, general) is silently
ignored: the search scans every entry of every topic exactly as if the
topic had been omitted. -/
theorem search_unknown_topic_spec :
    (∀ (kb : Knowledge) (q t : String), hasTopic kb t = false →
      search kb q (some t) = search kb q none) ∧
    (∀ (fe : Bool) (rc : Except Unit TopicData),
      (load_knowledge fe rc).map Prod.fst =
        ["crops", "pests", "soil", "weather", "general"]) ∧
    ("seeds" ∈ topic_patterns.map Prod.fst ∧
      "harvest" ∈ topic_patterns.map Prod.fst) ∧
    (∀ (fe : Bool) (rc : Except Unit TopicData),
      hasTopic (load_knowledge fe rc) "seeds" = false ∧
      hasTopic (load_knowledge fe rc) "harvest" = false) := by
  refine ⟨?_, ?_, ⟨by decide, by decide⟩, ?_⟩
  · intro kb q t h
    simp [search, h]
  · intro fe rc
    cases fe
    · rfl
    · cases rc with
      | ok d => rfl
      | error e => rfl
  · intro fe rc
    cases fe
    · exact ⟨rfl, rfl⟩
    · cases rc with
      | ok d => exact ⟨rfl, rfl⟩
      | error e => exact ⟨rfl, rfl⟩

/-- Closed witness for C10: topic "seeds" against the default store. -/
theorem search_unknown_topic_spec_witness :
    hasTopic default_knowledge "seeds" = false ∧
    search default_knowledge "sowing seeds" (some "seeds") =
      search default_knowledge "sowing seeds" none :=
  ⟨by decide,
    search_unknown_topic_spec.1 default_knowledge "sowing seeds" "seeds" (by decide)⟩

/-! Dialogue router and generation client (claims C1, C5, C6, C8) -/

lemma noWsRun_chain : ∀ l, noWsRun l = true → List.Chain' NoWsPair l := by
  intro l
  induction l with
  | nil => intro _; simp
  | cons a t ih =>
    cases t with
    | nil => intro _; simp
    | cons b r =>
      intro h
      have h2 : (!(pyIsSpace a && pyIsSpace b) && noWsRun (b :: r)) = true := h
      rw [Bool.and_eq_true] at h2
      have hab := h2.1
      rw [List.chain'_cons]
      constructor
      · cases hpa : pyIsSpace a with
        | false => exact Or.inl hpa
        | true =>
          right
          rw [hpa] at hab
          simpa using hab
      · exact ih h2.2

/-- A string that is already normalized (no uppercase letters, no
whitespace other than single interior spaces) is a fixed point of
`clean_text`; used to evaluate the router on concrete inputs. -/
lemma clean_text_of_clean (s : String) (h0 : s ≠ "")
    (h1 : ∀ a ∈ s.toList, pyToLower a = a)
    (h2 : ∀ a ∈ s.toList, pyIsSpace a = true → a = ' ')
    (h3 : noWsRun s.toList = true)
    (h5 : (s.toList.getLast?.all fun d => !pyIsSpace d) = true)
    (h4 : (s.toList.head?.all fun d => !pyIsSpace d) = true) :
    clean_text s = s := by
  have hh : ∀ d, s.toList.head? = some d → pyIsSpace d = false := by
    intro d hd
    rw [hd] at h4
    simpa using h4
  have hl : ∀ d, s.toList.getLast? = some d → pyIsSpace d = false := by
    intro d hd
    rw [hd] at h5
    simpa using h5
  rw [clean_text, if_neg h0, map_fix _ h1,
    collapseWS_eq_self _ h2 hl (noWsRun_chain _ h3), stripWS_eq_self hh hl]
  rfl

lemma get_response_greeting_eq (env : Env) (input : String)
    (hg : is_greeting (clean_text (pyLowerStr input)) = true) :
    ∃ i : Fin greetingsList.length, get_response env input = ⟨greetingsList.get i, 0⟩ := by
  refine ⟨env.randIdx.cast (by rfl), ?_⟩
  simp [get_response, hg]

lemma get_response_goodbye_eq (env : Env) (input : String)
    (hg : is_greeting (clean_text (pyLowerStr input)) = false)
    (hb : is_goodbye (clean_text (pyLowerStr input)) = true) :
    get_response env input = ⟨farewellMsg, 0⟩ := by
  simp [get_response, hg, hb]

lemma get_response_weather_eq (env : Env) (input : String)
    (hg : is_greeting (clean_text (pyLowerStr input)) = false)
    (hb : is_goodbye (clean_text (pyLowerStr input)) = false)
    (hw : ((topicKeywords "weather").any fun w =>
      isSubstr w (clean_text (pyLowerStr input))) = true) :
    get_response env input =
      (match get_weather env.feed with
        | some wi => get_ai_response env.backend (weatherPrompt wi) none
        | none => ⟨weatherApologyMsg, 0⟩) := by
  simp [get_response, hg, hb, hw]

lemma get_response_agri_eq (env : Env) (input : String)
    (hg : is_greeting (clean_text (pyLowerStr input)) = false)
    (hb : is_goodbye (clean_text (pyLowerStr input)) = false)
    (hw : ((topicKeywords "weather").any fun w =>
      isSubstr w (clean_text (pyLowerStr input))) = false) :
    get_response env input =
      process_agriculture_query env (clean_text (pyLowerStr input)) := by
  simp [get_response, hg, hb, hw]

/-- C6: when the generation backend failed to initialise (no chat
session), every call to the response-generation function returns the
fixed offline message with zero backend calls, whatever the user text
and context. -/
theorem get_ai_response_offline_spec (b : GenBackend) (user_input : String)
    (context : Option Entry) (h : b.chat = false) :
    get_ai_response b user_input context = ⟨offlineMsg, 0⟩ := by
  rw [get_ai_response, h]
  rfl

/-- Closed witness for C6. -/
theorem get_ai_response_offline_spec_witness :
    (GenBackend.mk false fun _ => Except.ok "ignored").chat = false ∧
    get_ai_response (GenBackend.mk false fun _ => Except.ok "ignored")
      "how do I grow rice" (some (Entry.str "context")) = ⟨offlineMsg, 0⟩ :=
  ⟨rfl, get_ai_response_offline_spec _ _ _ rfl⟩

/-- C5: on the weather path, whenever the live fetch yields null
(unconfigured channel, raised request, or empty/malformed feed),
`get_response` returns the fixed apology and the generation backend is
never called (zero backend calls). -/
theorem get_response_weather_failure_spec (env : Env) (input : String)
    (hg : is_greeting (clean_text (pyLowerStr input)) = false)
    (hb : is_goodbye (clean_text (pyLowerStr input)) = false)
    (hw : ((topicKeywords "weather").any fun w =>
      isSubstr w (clean_text (pyLowerStr input))) = true)
    (hf : get_weather env.feed = none) :
    get_response env input = ⟨weatherApologyMsg, 0⟩ := by
  rw [get_response_weather_eq env input hg hb hw, hf]

/-- Closed witness for C5: "what is the weather" with an unconfigured
channel id and a backend that would answer if it were (wrongly) called. -/
theorem get_response_weather_failure_spec_witness :
    (is_greeting (clean_text (pyLowerStr "what is the weather")) = false ∧
      is_goodbye (clean_text (pyLowerStr "what is the weather")) = false ∧
      ((topicKeywords "weather").any fun w =>
        isSubstr w (clean_text (pyLowerStr "what is the weather"))) = true ∧
      get_weather (FeedState.mk none FetchResult.raised) = none) ∧
    get_response
      (Env.mk (GenBackend.mk true fun _ => Except.ok "sunny") default_knowledge
        (FeedState.mk none FetchResult.raised) 0) "what is the weather" =
      ⟨weatherApologyMsg, 0⟩ := by
  have hcl := clean_text_of_clean (pyLowerStr "what is the weather") (by decide)
    (by decide) (by decide) (by decide) (by decide) (by decide)
  refine ⟨⟨by rw [hcl]; decide, by rw [hcl]; decide, by rw [hcl]; decide, rfl⟩, ?_⟩
  exact get_response_weather_failure_spec _ _ (by rw [hcl]; decide)
    (by rw [hcl]; decide) (by rw [hcl]; decide) rfl

/-- C1: `get_response` dispatches by fixed priority on the normalized
input: any greeting phrase yields one of the three greeting templates;
otherwise any farewell phrase yields the fixed farewell; otherwise any
weather keyword takes the weather path; otherwise the topic-classification
path runs — first match by this order wins. -/
theorem get_response_priority_spec (env : Env) (input : String) :
    (is_greeting (clean_text (pyLowerStr input)) = true →
      (get_response env input).text ∈ greetingsList ∧
      (get_response env input).backendCalls = 0) ∧
    (is_greeting (clean_text (pyLowerStr input)) = false →
      is_goodbye (clean_text (pyLowerStr input)) = true →
      get_response env input = ⟨farewellMsg, 0⟩) ∧
    (is_greeting (clean_text (pyLowerStr input)) = false →
      is_goodbye (clean_text (pyLowerStr input)) = false →
      ((topicKeywords "weather").any fun w =>
        isSubstr w (clean_text (pyLowerStr input))) = true →
      get_response env input =
        (match get_weather env.feed with
          | some wi => get_ai_response env.backend (weatherPrompt wi) none
          | none => ⟨weatherApologyMsg, 0⟩)) ∧
    (is_greeting (clean_text (pyLowerStr input)) = false →
      is_goodbye (clean_text (pyLowerStr input)) = false →
      ((topicKeywords "weather").any fun w =>
        isSubstr w (clean_text (pyLowerStr input))) = false →
      get_response env input =
        process_agriculture_query env (clean_text (pyLowerStr input))) := by
  refine ⟨?_, ?_, ?_, ?_⟩
  · intro hg
    obtain ⟨i, hi⟩ := get_response_greeting_eq env input hg
    rw [hi]
    exact ⟨List.get_mem greetingsList i.1 i.2, rfl⟩
  · exact get_response_goodbye_eq env input
  · exact get_response_weather_eq env input
  · exact get_response_agri_eq env input

/-- Closed witness for C1: "hi, how do I grow rice" mixes a greeting
phrase with crop keywords and still yields a greeting template. -/
theorem get_response_priority_spec_witness :
    is_greeting (clean_text (pyLowerStr "hi, how do I grow rice")) = true ∧
    (get_response
      (Env.mk (GenBackend.mk true fun _ => Except.ok "reply") default_knowledge
        (FeedState.mk none FetchResult.raised) 0) "hi, how do I grow rice").text ∈
      greetingsList ∧
    (get_response
      (Env.mk (GenBackend.mk true fun _ => Except.ok "reply") default_knowledge
        (FeedState.mk none FetchResult.raised) 0)
        "hi, how do I grow rice").backendCalls = 0 := by
  have hcl := clean_text_of_clean (pyLowerStr "hi, how do I grow rice") (by decide)
    (by decide) (by decide) (by decide) (by decide) (by decide)
  have hg : is_greeting (clean_text (pyLowerStr "hi, how do I grow rice")) = true := by
    rw [hcl]; decide
  obtain ⟨hm, hc⟩ := (get_response_priority_spec
    (Env.mk (GenBackend.mk true fun _ => Except.ok "reply") default_knowledge
      (FeedState.mk none FetchResult.raised) 0) "hi, how do I grow rice").1 hg
  exact ⟨hg, hm, hc⟩

lemma get_ai_response_cases (b : GenBackend) (ui : String) (ctx : Option Entry) :
    (get_ai_response b ui ctx).text = offlineMsg ∨
    (get_ai_response b ui ctx).text = backendTroubleMsg ∨
    ∃ prompt reply, b.send prompt = Except.ok reply ∧
      (get_ai_response b ui ctx).text = strip_markdown_fence reply := by
  cases hb : b.chat with
  | false =>
    left
    rw [get_ai_response, hb]
    rfl
  | true =>
    cases hs : b.send (buildPrompt ui ctx) with
    | ok r =>
      right; right
      exact ⟨buildPrompt ui ctx, r, hs, by rw [get_ai_response, hb]; simp [hs]⟩
    | error e =>
      right; left
      rw [get_ai_response, hb]
      simp [hs]

/-- C8: for every input and every oracle environment (including
failing weather feeds and a raising or offline backend), `get_response`
produces a plain reply: one of the fixed greeting, farewell, apology or
offline strings, or the post-processed text of a successful backend
reply — internal failures never escape as exceptions. -/
theorem get_response_total_spec (env : Env) (input : String) :
    (get_response env input).text ∈ greetingsList ∨
    (get_response env input).text = farewellMsg ∨
    (get_response env input).text = weatherApologyMsg ∨
    (get_response env input).text = offlineMsg ∨
    (get_response env input).text = backendTroubleMsg ∨
    ∃ prompt reply, env.backend.send prompt = Except.ok reply ∧
      (get_response env input).text = strip_markdown_fence reply := by
  by_cases hg : is_greeting (clean_text (pyLowerStr input)) = true
  · left
    obtain ⟨i, hi⟩ := get_response_greeting_eq env input hg
    rw [hi]
    exact List.get_mem greetingsList i.1 i.2
  · have hg2 : is_greeting (clean_text (pyLowerStr input)) = false := by
      simpa using hg
    by_cases hb : is_goodbye (clean_text (pyLowerStr input)) = true
    · right; left
      rw [get_response_goodbye_eq env input hg2 hb]
    · have hb2 : is_goodbye (clean_text (pyLowerStr input)) = false := by
        simpa using hb
      by_cases hw : ((topicKeywords "weather").any fun w =>
          isSubstr w (clean_text (pyLowerStr input))) = true
      · rw [get_response_weather_eq env input hg2 hb2 hw]
        cases hf : get_weather env.feed with
        | none => right; right; left; rfl
        | some wi =>
          rcases get_ai_response_cases env.backend (weatherPrompt wi) none with
            h | h | ⟨p, r, hs, h⟩
          · right; right; right; left; exact h
          · right; right; right; right; left; exact h
          · right; right; right; right; right; exact ⟨p, r, hs, h⟩
      · have hw2 : ((topicKeywords "weather").any fun w =>
            isSubstr w (clean_text (pyLowerStr input))) = false := by
          simpa using hw
        rw [get_response_agri_eq env input hg2 hb2 hw2, process_agriculture_query]
        rcases get_ai_response_cases env.backend (clean_text (pyLowerStr input))
          (match identify_topic (clean_text (pyLowerStr input)) with
            | some t => search env.kb (clean_text (pyLowerStr input)) (some t)
            | none => none) with h | h | ⟨p, r, hs, h⟩
        · right; right; right; left; exact h
        · right; right; right; right; left; exact h
        · right; right; right; right; right; exact ⟨p, r, hs, h⟩

end Agrichatbot
